import Mathlib

/-!
Verification of the `lending-cell` crate (`src/lib.rs`).

The crate has two handle types, `LendingCell<T>` (the Owner) and
`BorrowedCell<T>` (the Borrower), both holding an `Arc<UnsafeCell<T>>`
to one shared slot.  The only runtime state is the `Arc`'s reference
counts and which handles are alive, so we embed a slot configuration as
a record of

  * the stored value (never moved by lend/release: the Rust code only
    clones and drops `Arc` handles, the `T` stays in place),
  * the `Arc` strong count and weak count,
  * liveness flags for the Owner and the Borrower handle,
  * whether the backing allocation is still live, and whether the
    value's destructor has run.

Each public operation of the crate becomes a function on this
configuration, translated line by line from `src/lib.rs`; `Arc`
primitives (`strong_count`, `clone`, `get_mut`, `try_unwrap`, `drop`)
are given their documented semantics on the counts.  Reachability is an
inductive relation generated by the operations, and the claims are
proved from an invariant established by induction on reachability.
-/

set_option autoImplicit false

namespace LendingCell

universe u

/-- A configuration of one slot together with its (at most two) handles.
`value` is the `T` stored in the `UnsafeCell`; `strong`/`weak` are the
`Arc` reference counts; `ownerAlive`/`borrowerAlive` record whether the
`LendingCell` resp. `BorrowedCell` handle has not been dropped;
`allocated` records whether the backing allocation is still live;
`valueDropped` records whether the destructor of the stored `T` has run. -/
structure Config (T : Type u) where
  value : T
  strong : Nat
  weak : Nat
  ownerAlive : Bool
  borrowerAlive : Bool
  allocated : Bool
  valueDropped : Bool
  deriving Repr, DecidableEq

variable {T : Type u}

/-- Embedding of `LendingCell::new` (lib.rs:55): `Arc::new(UnsafeCell::new(thing))`
allocates a fresh slot with strong count 1, weak count 0, only the
Owner handle alive. -/
def new (thing : T) : Config T :=
  { value := thing
    strong := 1
    weak := 0
    ownerAlive := true
    borrowerAlive := false
    allocated := true
    valueDropped := false }

/-- Embedding of `LendingCell::try_get` (lib.rs:63-69): returns a reference to the
value exactly when `Arc::strong_count(&self.thing) == 1`. -/
def try_get (c : Config T) : Option T :=
  if c.strong = 1 then some c.value else none

/-- Embedding of `LendingCell::try_get_mut` (lib.rs:79-81): `Arc::get_mut` returns a
mutable reference exactly when there is no other `Arc` or `Weak` to the
same allocation, i.e. when the strong count is 1 and the weak count
is 0. -/
def try_get_mut (c : Config T) : Option T :=
  if c.strong = 1 ∧ c.weak = 0 then some c.value else none

/-- Embedding of `LendingCell::try_to_borrowed` (lib.rs:97-105): when the strong
count is 1, `Arc::clone` increments the strong count and the resulting
`BorrowedCell` handle becomes alive; otherwise nothing changes and no
handle is produced.  The first component is the returned
`Option<BorrowedCell>` (as an `Option Unit` tag), the second the slot
configuration afterwards. -/
def try_to_borrowed (c : Config T) : Option Unit × Config T :=
  if c.strong = 1 then
    (some (), { c with strong := c.strong + 1, borrowerAlive := true })
  else
    (none, c)

/-- Embedding of `LendingCell::try_into_inner` (lib.rs:109-113): `Arc::try_unwrap`
succeeds exactly when the strong count is 1, in which case the value is
moved out (`into_inner`) and the backing allocation is freed, consuming
the Owner handle; on failure the same `Arc` is wrapped back into a
`LendingCell` and returned, leaving the configuration unchanged. -/
def try_into_inner (c : Config T) : Except (Config T) (T × Config T) :=
  if c.strong = 1 then
    .ok (c.value,
      { c with strong := 0, ownerAlive := false, allocated := false })
  else
    .error c

/-- Embedding of `BorrowedCell::deref` (lib.rs:127-129): unconditionally reads the
slot's value. -/
def deref (c : Config T) : T :=
  c.value

/-- Embedding of `BorrowedCell::deref_mut` (lib.rs:133-135): unconditionally
accesses the slot's value. -/
def deref_mut (c : Config T) : T :=
  c.value

/-- Dropping the `Arc` inside the Owner handle (compiler-generated drop
of `LendingCell`): the strong count is decremented; if it reaches 0 the
stored value is dropped and (the weak count being 0) the allocation is
freed. -/
def drop_owner (c : Config T) : Config T :=
  if c.strong - 1 = 0 then
    { c with strong := 0, ownerAlive := false, allocated := false,
             valueDropped := true }
  else
    { c with strong := c.strong - 1, ownerAlive := false }

/-- Dropping the `Arc` inside the Borrower handle (compiler-generated
drop of `BorrowedCell`): the strong count is decremented; if it reaches
0 the stored value is dropped and the allocation is freed. -/
def drop_borrower (c : Config T) : Config T :=
  if c.strong - 1 = 0 then
    { c with strong := 0, borrowerAlive := false, allocated := false,
             valueDropped := true }
  else
    { c with strong := c.strong - 1, borrowerAlive := false }

/-- Result of Rust's `Option::unwrap`: either the contained value, or a
fatal abort (`panic`) when the option is `None`. -/
inductive UnwrapResult (A : Type u) where
  | fatal : UnwrapResult A
  | value : A → UnwrapResult A
  deriving Repr, DecidableEq

/-- Rust's `Option::unwrap` as used by the non-try accessors: panics (fatal)
on `None`, returns the value on `Some`. -/
def unwrapModel {A : Type u} : Option A → UnwrapResult A
  | none => .fatal
  | some a => .value a

/-- Embedding of `LendingCell::get` (lib.rs:73-75): `self.try_get().unwrap()`. -/
def get (c : Config T) : UnwrapResult T :=
  unwrapModel (try_get c)

/-- Embedding of `LendingCell::get_mut` (lib.rs:85-87): `self.try_get_mut().unwrap()`. -/
def get_mut (c : Config T) : UnwrapResult T :=
  unwrapModel (try_get_mut c)

/-- Embedding of `LendingCell::to_borrowed` (lib.rs:91-93):
`self.try_to_borrowed().unwrap()`; the panic happens before any state
change, since `try_to_borrowed` only changes the counts on success. -/
def to_borrowed (c : Config T) : UnwrapResult (Unit × Config T) :=
  match try_to_borrowed c with
  | (some u, c') => .value (u, c')
  | (none, _) => .fatal

/-- One step of the slot's evolution: any state-changing operation a
client can perform.  Queries (`try_get`, `try_get_mut`, `deref`) do not
change the configuration.  `try_to_borrowed` and `try_into_inner`
require a live Owner handle (they take `&mut self` resp. `self`);
dropping a handle requires that handle to be alive. -/
inductive Step : Config T → Config T → Prop where
  | lend (c : Config T) (ho : c.ownerAlive = true) :
      Step c (try_to_borrowed c).2
  | consume_ok (c : Config T) (v : T) (c' : Config T)
      (ho : c.ownerAlive = true) (h : try_into_inner c = .ok (v, c')) :
      Step c c'
  | consume_err (c c' : Config T)
      (ho : c.ownerAlive = true) (h : try_into_inner c = .error c') :
      Step c c'
  | drop_owner (c : Config T) (ho : c.ownerAlive = true) :
      Step c (drop_owner c)
  | drop_borrower (c : Config T) (hb : c.borrowerAlive = true) :
      Step c (drop_borrower c)

/-- The configurations reachable by any sequence of operations on a
slot created by `LendingCell::new`. -/
inductive Reach : Config T → Prop where
  | init (v : T) : Reach (new v)
  | step {c c' : Config T} : Reach c → Step c c' → Reach c'

/-- The slot invariant: the crate never creates weak references; the
strong count is exactly the number of live handles; the allocation is
live exactly while some handle keeps the strong count positive; and the
value's destructor runs only after the last handle is gone. -/
def Inv (c : Config T) : Prop :=
  c.weak = 0 ∧
  c.strong = (if c.ownerAlive then 1 else 0) +
             (if c.borrowerAlive then 1 else 0) ∧
  (c.allocated = true ↔ c.strong ≠ 0) ∧
  (c.valueDropped = true → c.strong = 0)

theorem inv_new (v : T) : Inv (new v) := by
  simp [Inv, new]

theorem inv_step {c c' : Config T} (hc : Inv c) (hs : Step c c') :
    Inv c' := by
  obtain ⟨hw, hcount, halloc, hdrop⟩ := hc
  cases hs with
  | lend ho =>
    unfold try_to_borrowed
    split
    · rename_i h1
      have hb : c.borrowerAlive = false := by
        cases hbv : c.borrowerAlive
        · rfl
        · rw [ho, hbv] at hcount
          simp at hcount
          omega
      refine ⟨hw, ?_, ?_, ?_⟩
      · simp [ho, h1]
      · simp only [ne_eq]
        constructor
        · intro _
          simp [h1]
        · intro _
          exact halloc.mpr (by omega)
      · intro hd
        exact absurd (hdrop hd) (by omega)
    · exact ⟨hw, hcount, halloc, hdrop⟩
  | consume_ok v c' ho h =>
    unfold try_into_inner at h
    split at h
    · rename_i h1
      cases h
      have hb : c.borrowerAlive = false := by
        cases hbv : c.borrowerAlive
        · rfl
        · rw [ho, hbv] at hcount
          simp at hcount
          omega
      refine ⟨hw, by simp [hb], by simp, ?_⟩
      intro _
      rfl
    · cases h
  | consume_err c' ho h =>
    unfold try_into_inner at h
    split at h
    · cases h
    · cases h
      exact ⟨hw, hcount, halloc, hdrop⟩
  | drop_owner ho =>
    unfold LendingCell.drop_owner
    have hs1 : c.strong = 1 + (if c.borrowerAlive then 1 else 0) := by
      rw [hcount, ho]
      simp
    split
    · rename_i h0
      have hb : c.borrowerAlive = false := by
        cases hbv : c.borrowerAlive
        · rfl
        · rw [hbv] at hs1
          simp at hs1
          omega
      refine ⟨hw, by simp [hb], by simp, ?_⟩
      intro _
      rfl
    · rename_i h0
      have hb : c.borrowerAlive = true := by
        cases hbv : c.borrowerAlive
        · rw [hbv] at hs1
          simp at hs1
          omega
        · rfl
      rw [hb] at hs1
      simp at hs1
      refine ⟨hw, ?_, ?_, ?_⟩
      · simp [hb]
        omega
      · simp only [ne_eq]
        constructor
        · intro _
          omega
        · intro _
          exact halloc.mpr (by omega)
      · intro hd
        exact absurd (hdrop hd) (by omega)
  | drop_borrower hb =>
    unfold LendingCell.drop_borrower
    have hs1 : c.strong = (if c.ownerAlive then 1 else 0) + 1 := by
      rw [hcount, hb]
      simp
    split
    · rename_i h0
      have ho : c.ownerAlive = false := by
        cases hov : c.ownerAlive
        · rfl
        · rw [hov] at hs1
          simp at hs1
          omega
      refine ⟨hw, by simp [ho], by simp, ?_⟩
      intro _
      rfl
    · rename_i h0
      have ho : c.ownerAlive = true := by
        cases hov : c.ownerAlive
        · rw [hov] at hs1
          simp at hs1
          omega
        · rfl
      rw [ho] at hs1
      simp at hs1
      refine ⟨hw, ?_, ?_, ?_⟩
      · simp [ho]
        omega
      · simp only [ne_eq]
        constructor
        · intro _
          omega
        · intro _
          exact halloc.mpr (by omega)
      · intro hd
        exact absurd (hdrop hd) (by omega)

theorem reach_inv {c : Config T} (h : Reach c) : Inv c := by
  induction h with
  | init v => exact inv_new v
  | step _ hs ih => exact inv_step ih hs

theorem reach_weak {c : Config T} (h : Reach c) : c.weak = 0 :=
  (reach_inv h).1

theorem reach_strong_count {c : Config T} (h : Reach c) :
    c.strong = (if c.ownerAlive then 1 else 0) +
               (if c.borrowerAlive then 1 else 0) :=
  (reach_inv h).2.1

theorem reach_alloc_iff {c : Config T} (h : Reach c) :
    c.allocated = true ↔ c.strong ≠ 0 :=
  (reach_inv h).2.2.1

theorem reach_dropped {c : Config T} (h : Reach c) :
    c.valueDropped = true → c.strong = 0 :=
  (reach_inv h).2.2.2

theorem reach_strong_lent {c : Config T} (h : Reach c)
    (ho : c.ownerAlive = true) (hb : c.borrowerAlive = true) :
    c.strong = 2 := by
  have hc := reach_strong_count h
  rw [ho, hb] at hc
  simpa using hc

theorem reach_strong_present {c : Config T} (h : Reach c)
    (ho : c.ownerAlive = true) (hb : c.borrowerAlive = false) :
    c.strong = 1 := by
  have hc := reach_strong_count h
  rw [ho, hb] at hc
  simpa using hc

theorem reach_strong_one_iff {c : Config T} (h : Reach c)
    (ho : c.ownerAlive = true) :
    c.strong = 1 ↔ c.borrowerAlive = false := by
  constructor
  · intro h1
    cases hbv : c.borrowerAlive
    · rfl
    · exact absurd (reach_strong_lent h ho hbv) (by omega)
  · exact reach_strong_present h ho

theorem try_get_isSome_iff (c : Config T) :
    (try_get c).isSome ↔ c.strong = 1 := by
  unfold try_get
  split <;> rename_i h1 <;> simp [h1]

/-- C1: while a Borrower handle for a slot is alive, the live Owner's
`try_get` on that slot returns `None` — Owner-present-access and
Borrower-access are never simultaneously valid. -/
theorem borrower_excludes_owner_access {c : Config T} (h : Reach c)
    (ho : c.ownerAlive = true) (hb : c.borrowerAlive = true) :
    try_get c = none := by
  have h2 := reach_strong_lent h ho hb
  unfold try_get
  rw [if_neg (by omega)]

theorem borrower_excludes_owner_access_witness :
    try_get (try_to_borrowed (new (0 : Nat))).2 = none :=
  borrower_excludes_owner_access
    (Reach.step (Reach.init 0) (Step.lend (new 0) rfl)) rfl rfl

/-- C2: in every reachable configuration, the slot is allocated exactly
while the strong count is nonzero; while allocated the count is exactly
1 or 2; a live handle keeps the count nonzero; and the value is dropped
only together with deallocation, when the count has reached 0. -/
theorem live_handle_count_one_or_two {c : Config T} (h : Reach c) :
    (c.allocated = true ↔ c.strong ≠ 0) ∧
    (c.allocated = true → c.strong = 1 ∨ c.strong = 2) ∧
    (c.ownerAlive = true ∨ c.borrowerAlive = true → c.strong ≠ 0) ∧
    (c.valueDropped = true → c.strong = 0 ∧ c.allocated = false) := by
  have hcount := reach_strong_count h
  have halloc := reach_alloc_iff h
  have hdrop := reach_dropped h
  refine ⟨halloc, ?_, ?_, ?_⟩
  · intro ha
    have h0 := halloc.mp ha
    cases hov : c.ownerAlive <;> cases hbv : c.borrowerAlive <;>
      rw [hov, hbv] at hcount <;> simp at hcount <;> omega
  · intro hl
    rcases hl with hov | hbv
    · rw [hov] at hcount
      simp at hcount
      omega
    · rw [hbv] at hcount
      simp at hcount
      omega
  · intro hd
    have h0 := hdrop hd
    refine ⟨h0, ?_⟩
    cases hav : c.allocated
    · rfl
    · exact absurd h0 (halloc.mp hav)

theorem live_handle_count_one_or_two_witness :
    (((new (0 : Nat)).allocated = true ↔ (new (0 : Nat)).strong ≠ 0) ∧
     ((new (0 : Nat)).allocated = true →
        (new (0 : Nat)).strong = 1 ∨ (new (0 : Nat)).strong = 2) ∧
     ((new (0 : Nat)).ownerAlive = true ∨
        (new (0 : Nat)).borrowerAlive = true → (new (0 : Nat)).strong ≠ 0) ∧
     ((new (0 : Nat)).valueDropped = true →
        (new (0 : Nat)).strong = 0 ∧ (new (0 : Nat)).allocated = false)) :=
  live_handle_count_one_or_two (Reach.init 0)

/-- C3: for a live Owner, `try_get` and `try_get_mut` return the
contained value exactly when the slot is Present (strong count 1), and
return `None` when a Borrower is outstanding (Lent). -/
theorem try_peek_iff_present {c : Config T} (h : Reach c)
    (ho : c.ownerAlive = true) :
    ((try_get c).isSome ↔ c.strong = 1) ∧
    ((try_get_mut c).isSome ↔ c.strong = 1) ∧
    (c.strong = 1 → try_get c = some c.value ∧ try_get_mut c = some c.value) ∧
    (c.borrowerAlive = true → try_get c = none ∧ try_get_mut c = none) := by
  have hw := reach_weak h
  refine ⟨try_get_isSome_iff c, ?_, ?_, ?_⟩
  · unfold try_get_mut
    split <;> rename_i h1
    · simp [h1.1]
    · simp only [Option.isSome_none, Bool.false_eq_true, false_iff]
      intro hs
      exact h1 ⟨hs, hw⟩
  · intro h1
    constructor
    · unfold try_get
      rw [if_pos h1]
    · unfold try_get_mut
      rw [if_pos ⟨h1, hw⟩]
  · intro hb
    have h2 := reach_strong_lent h ho hb
    constructor
    · unfold try_get
      rw [if_neg (by omega)]
    · unfold try_get_mut
      rw [if_neg (by omega)]

theorem try_peek_iff_present_witness :
    (((try_get (new (5 : Nat))).isSome ↔ (new (5 : Nat)).strong = 1) ∧
     ((try_get_mut (new (5 : Nat))).isSome ↔ (new (5 : Nat)).strong = 1) ∧
     ((new (5 : Nat)).strong = 1 →
        try_get (new (5 : Nat)) = some (new (5 : Nat)).value ∧
        try_get_mut (new (5 : Nat)) = some (new (5 : Nat)).value) ∧
     ((new (5 : Nat)).borrowerAlive = true →
        try_get (new (5 : Nat)) = none ∧ try_get_mut (new (5 : Nat)) = none)) :=
  try_peek_iff_present (Reach.init 5) rfl

/-- C4: for a live Owner, `try_to_borrowed` succeeds exactly when the
slot is Present (strong count 1, no Borrower); on success the count
becomes 2, a Borrower handle becomes alive and the value is untouched;
when a Borrower is already outstanding it returns `None` and changes
nothing. -/
theorem try_lend_correct {c : Config T} (h : Reach c)
    (ho : c.ownerAlive = true) :
    ((try_to_borrowed c).1.isSome ↔ c.strong = 1) ∧
    ((try_to_borrowed c).1.isSome ↔ c.borrowerAlive = false) ∧
    (c.strong = 1 →
      (try_to_borrowed c).2.strong = 2 ∧
      (try_to_borrowed c).2.borrowerAlive = true ∧
      (try_to_borrowed c).2.ownerAlive = true ∧
      (try_to_borrowed c).2.value = c.value) ∧
    (c.borrowerAlive = true →
      (try_to_borrowed c).1 = none ∧ (try_to_borrowed c).2 = c) := by
  have hone := reach_strong_one_iff h ho
  have hsucc : (try_to_borrowed c).1.isSome ↔ c.strong = 1 := by
    unfold try_to_borrowed
    split <;> rename_i h1 <;> simp [h1]
  refine ⟨hsucc, hsucc.trans hone, ?_, ?_⟩
  · intro h1
    unfold try_to_borrowed
    rw [if_pos h1]
    exact ⟨by simp [h1], by simp, by simp [ho], by simp⟩
  · intro hb
    have h2 := reach_strong_lent h ho hb
    unfold try_to_borrowed
    rw [if_neg (by omega)]
    exact ⟨rfl, rfl⟩

theorem try_lend_correct_witness :
    (((try_to_borrowed (new (1 : Nat))).1.isSome ↔ (new (1 : Nat)).strong = 1) ∧
     ((try_to_borrowed (new (1 : Nat))).1.isSome ↔
        (new (1 : Nat)).borrowerAlive = false) ∧
     ((new (1 : Nat)).strong = 1 →
        (try_to_borrowed (new (1 : Nat))).2.strong = 2 ∧
        (try_to_borrowed (new (1 : Nat))).2.borrowerAlive = true ∧
        (try_to_borrowed (new (1 : Nat))).2.ownerAlive = true ∧
        (try_to_borrowed (new (1 : Nat))).2.value = (new (1 : Nat)).value) ∧
     ((new (1 : Nat)).borrowerAlive = true →
        (try_to_borrowed (new (1 : Nat))).1 = none ∧
        (try_to_borrowed (new (1 : Nat))).2 = new (1 : Nat))) :=
  try_lend_correct (Reach.init 1) rfl

/-- C5: identity-preserving round trip: after `new v` the Owner's
`try_get` returns `v`; after a successful lend the Owner's `try_get`
returns `None` while the Borrower dereferences to `v`; dropping the
Borrower restores the Owner's `try_get` to `some v`, and the slot's
value field is the very same one put there at construction — lend and
release never move or replace it. -/
theorem lend_release_round_trip (v : T) :
    try_get (new v) = some v ∧
    try_get (try_to_borrowed (new v)).2 = none ∧
    deref (try_to_borrowed (new v)).2 = v ∧
    try_get (drop_borrower (try_to_borrowed (new v)).2) = some v ∧
    (drop_borrower (try_to_borrowed (new v)).2).value = (new v).value ∧
    (drop_borrower (try_to_borrowed (new v)).2).ownerAlive = true :=
  ⟨rfl, rfl, rfl, rfl, rfl, rfl⟩

/-- C6: for a live Owner, `try_into_inner` succeeds exactly when the
slot is Present (strong count 1, no Borrower); on success it moves the
contained value out (its destructor does not run) and deallocates the
slot shell; when the slot is Lent it returns the Owner handle with the
configuration completely unchanged, so no state is lost on failure. -/
theorem try_consume_correct {c : Config T} (h : Reach c)
    (ho : c.ownerAlive = true) :
    ((∃ v c', try_into_inner c = .ok (v, c')) ↔ c.strong = 1) ∧
    ((∃ v c', try_into_inner c = .ok (v, c')) ↔ c.borrowerAlive = false) ∧
    (c.strong = 1 →
      try_into_inner c =
        .ok (c.value,
          { c with strong := 0, ownerAlive := false, allocated := false })) ∧
    (∀ v c', try_into_inner c = .ok (v, c') →
      v = c.value ∧ c'.allocated = false ∧ c'.strong = 0 ∧
      c'.valueDropped = c.valueDropped) ∧
    (c.borrowerAlive = true → try_into_inner c = .error c) := by
  have hone := reach_strong_one_iff h ho
  have hsucc : (∃ v c', try_into_inner c = .ok (v, c')) ↔ c.strong = 1 := by
    unfold try_into_inner
    split <;> rename_i h1
    · simp [h1]
    · simp [h1]
  refine ⟨hsucc, hsucc.trans hone, ?_, ?_, ?_⟩
  · intro h1
    unfold try_into_inner
    rw [if_pos h1]
  · intro v c' hvc
    unfold try_into_inner at hvc
    split at hvc <;> rename_i h1
    · cases hvc
      exact ⟨rfl, rfl, rfl, rfl⟩
    · cases hvc
  · intro hb
    have h2 := reach_strong_lent h ho hb
    unfold try_into_inner
    rw [if_neg (by omega)]

theorem try_consume_correct_witness :
    (((∃ v c', try_into_inner (new (2 : Nat)) = .ok (v, c')) ↔
        (new (2 : Nat)).strong = 1) ∧
     ((∃ v c', try_into_inner (new (2 : Nat)) = .ok (v, c')) ↔
        (new (2 : Nat)).borrowerAlive = false) ∧
     ((new (2 : Nat)).strong = 1 →
        try_into_inner (new (2 : Nat)) =
          .ok ((new (2 : Nat)).value,
            { new (2 : Nat) with
                strong := 0, ownerAlive := false, allocated := false })) ∧
     (∀ v c', try_into_inner (new (2 : Nat)) = .ok (v, c') →
        v = (new (2 : Nat)).value ∧ c'.allocated = false ∧ c'.strong = 0 ∧
        c'.valueDropped = (new (2 : Nat)).valueDropped) ∧
     ((new (2 : Nat)).borrowerAlive = true →
        try_into_inner (new (2 : Nat)) = .error (new (2 : Nat)))) :=
  try_consume_correct (Reach.init 2) rfl

/-- C7: for a live Owner, the assertive operations `get`, `get_mut` and
`to_borrowed` behave exactly like their try-counterparts when the slot
is Present, and abort fatally (panic via `unwrap`) exactly when the try
variant would return `None` — i.e. exactly when the value is currently
lent; the failure is never turned into a recoverable result. -/
theorem assertive_ops_match_try {c : Config T} (h : Reach c)
    (ho : c.ownerAlive = true) :
    (get c = .fatal ↔ try_get c = none) ∧
    (get_mut c = .fatal ↔ try_get_mut c = none) ∧
    (to_borrowed c = .fatal ↔ (try_to_borrowed c).1 = none) ∧
    (c.borrowerAlive = false →
      get c = .value c.value ∧
      get_mut c = .value c.value ∧
      to_borrowed c = .value ((), (try_to_borrowed c).2)) ∧
    (c.borrowerAlive = true →
      get c = .fatal ∧ get_mut c = .fatal ∧ to_borrowed c = .fatal) := by
  have hw := reach_weak h
  refine ⟨?_, ?_, ?_, ?_, ?_⟩
  · unfold get unwrapModel
    cases hg : try_get c <;> simp [hg]
  · unfold get_mut unwrapModel
    cases hg : try_get_mut c <;> simp [hg]
  · unfold to_borrowed
    cases hg : (try_to_borrowed c).1 <;> rw [show try_to_borrowed c =
        ((try_to_borrowed c).1, (try_to_borrowed c).2) from rfl, hg] <;> simp
  · intro hb
    have h1 := reach_strong_present h ho hb
    refine ⟨?_, ?_, ?_⟩
    · unfold get try_get unwrapModel
      rw [if_pos h1]
    · unfold get_mut try_get_mut unwrapModel
      rw [if_pos ⟨h1, hw⟩]
    · unfold to_borrowed try_to_borrowed
      rw [if_pos h1]
  · intro hb
    have h2 := reach_strong_lent h ho hb
    refine ⟨?_, ?_, ?_⟩
    · unfold get try_get unwrapModel
      rw [if_neg (by omega)]
    · unfold get_mut try_get_mut unwrapModel
      rw [if_neg (by omega)]
    · unfold to_borrowed try_to_borrowed
      rw [if_neg (by omega)]

theorem assertive_ops_match_try_witness :
    ((get (new (3 : Nat)) = .fatal ↔ try_get (new (3 : Nat)) = none) ∧
     (get_mut (new (3 : Nat)) = .fatal ↔ try_get_mut (new (3 : Nat)) = none) ∧
     (to_borrowed (new (3 : Nat)) = .fatal ↔
        (try_to_borrowed (new (3 : Nat))).1 = none) ∧
     ((new (3 : Nat)).borrowerAlive = false →
        get (new (3 : Nat)) = .value (new (3 : Nat)).value ∧
        get_mut (new (3 : Nat)) = .value (new (3 : Nat)).value ∧
        to_borrowed (new (3 : Nat)) =
          .value ((), (try_to_borrowed (new (3 : Nat))).2)) ∧
     ((new (3 : Nat)).borrowerAlive = true →
        get (new (3 : Nat)) = .fatal ∧ get_mut (new (3 : Nat)) = .fatal ∧
        to_borrowed (new (3 : Nat)) = .fatal)) :=
  assertive_ops_match_try (Reach.init 3) rfl

/-- C8: orphan path: while a Borrower is alive the value has never been
dropped and the Borrower dereferences to the slot's value; dropping the
Owner while the Borrower is alive does not drop the value, does not
deallocate, and leaves the Borrower's view unchanged; releasing the
Borrower after the Owner is gone drops the value and deallocates the
slot in that single step, after which no handle is alive. -/
theorem orphan_path_correct {c : Config T} (h : Reach c)
    (hb : c.borrowerAlive = true) :
    c.valueDropped = false ∧
    deref c = c.value ∧
    (c.ownerAlive = true →
      (drop_owner c).valueDropped = false ∧
      (drop_owner c).allocated = true ∧
      (drop_owner c).borrowerAlive = true ∧
      deref (drop_owner c) = deref c) ∧
    (c.ownerAlive = false →
      (drop_borrower c).valueDropped = true ∧
      (drop_borrower c).allocated = false ∧
      (drop_borrower c).ownerAlive = false ∧
      (drop_borrower c).borrowerAlive = false) := by
  have hcount := reach_strong_count h
  have hdrop := reach_dropped h
  have halloc := reach_alloc_iff h
  rw [hb] at hcount
  simp at hcount
  have hnd : c.valueDropped = false := by
    cases hdv : c.valueDropped
    · rfl
    · have h0 := hdrop hdv
      cases hov : c.ownerAlive <;> rw [hov] at hcount <;>
        simp at hcount <;> omega
  refine ⟨hnd, rfl, ?_, ?_⟩
  · intro ho
    rw [ho] at hcount
    simp at hcount
    unfold drop_owner
    rw [if_neg (by omega)]
    refine ⟨hnd, ?_, hb, rfl⟩
    exact halloc.mpr (by omega)
  · intro ho
    rw [ho] at hcount
    simp at hcount
    unfold drop_borrower
    rw [if_pos (by omega)]
    exact ⟨rfl, rfl, ho, rfl⟩

theorem orphan_path_correct_witness :
    ((try_to_borrowed (new (4 : Nat))).2.valueDropped = false ∧
     deref (try_to_borrowed (new (4 : Nat))).2 =
       (try_to_borrowed (new (4 : Nat))).2.value ∧
     ((try_to_borrowed (new (4 : Nat))).2.ownerAlive = true →
        (drop_owner (try_to_borrowed (new (4 : Nat))).2).valueDropped = false ∧
        (drop_owner (try_to_borrowed (new (4 : Nat))).2).allocated = true ∧
        (drop_owner (try_to_borrowed (new (4 : Nat))).2).borrowerAlive = true ∧
        deref (drop_owner (try_to_borrowed (new (4 : Nat))).2) =
          deref (try_to_borrowed (new (4 : Nat))).2) ∧
     ((try_to_borrowed (new (4 : Nat))).2.ownerAlive = false →
        (drop_borrower (try_to_borrowed (new (4 : Nat))).2).valueDropped = true ∧
        (drop_borrower (try_to_borrowed (new (4 : Nat))).2).allocated = false ∧
        (drop_borrower (try_to_borrowed (new (4 : Nat))).2).ownerAlive = false ∧
        (drop_borrower (try_to_borrowed (new (4 : Nat))).2).borrowerAlive = false)) :=
  orphan_path_correct
    (Reach.step (Reach.init 4) (Step.lend (new 4) rfl)) rfl

/-- C10: in every reachable configuration the crate has created no weak
reference, so the `Arc::get_mut` condition of `try_get_mut` (strong
count 1 and weak count 0) coincides with the `Arc::strong_count == 1`
test of `try_get`: the two accessors agree, and in particular succeed
on exactly the same reachable configurations. -/
theorem try_get_mut_agrees_try_get {c : Config T} (h : Reach c) :
    try_get_mut c = try_get c ∧
    ((try_get_mut c).isSome ↔ (try_get c).isSome) := by
  have hw := reach_weak h
  have heq : try_get_mut c = try_get c := by
    unfold try_get_mut try_get
    rw [hw]
    simp
  exact ⟨heq, by rw [heq]⟩

theorem try_get_mut_agrees_try_get_witness :
    (try_get_mut (new (6 : Nat)) = try_get (new (6 : Nat)) ∧
     ((try_get_mut (new (6 : Nat))).isSome ↔
        (try_get (new (6 : Nat))).isSome)) :=
  try_get_mut_agrees_try_get (Reach.init 6)

end LendingCell
